import Mathlib

/-!
Verification of the argument-sanitizing wrapper in
`src/helpers/fastmcp_patch.py` of the zabbix-mcp-server repository.

The Python module patches `fastmcp.tools.tool.FunctionTool.run` with
`_run_with_arg_sanitizer`, which:
  * delegates non-dict payloads unchanged to the original `run`;
  * lazily computes and caches the callable's parameter-name allowlist
    on the registration (`self._allowed_parameter_names`);
  * filters the payload down to allowlisted keys;
  * logs a diagnostic naming the tool and the sorted dropped keys when
    any key was removed;
  * forwards the sanitized payload to the original `run`, passing its
    result or exception through unchanged.

The embedding below models Python values, the registration object, the
wrapper as an entry-point transformer, and the lazy cache as explicit
state threading.
-/

namespace FastmcpPatch

/-- A Python/JSON-style runtime value: the shape of a tool-invocation
payload.  A `dict` is a list of key-value entries in insertion order
(Python dicts preserve insertion order). -/
inductive PyVal where
  | str (s : String)
  | int (n : Int)
  | bool (b : Bool)
  | null
  | list (xs : List PyVal)
  | dict (entries : List (String × PyVal))

/-- Line 38 of the source: the `isinstance(arguments, dict)` check. -/
def PyVal.isDict : PyVal → Bool
  | .dict _ => true
  | _ => false

/-- The wrapped callable (`self.fn`): its `__name__` together with the
result of `inspect.signature(...).parameters.keys()` in declaration
order.  `Except.error msg` models `inspect.signature` raising (an
opaque/native callable with no discoverable parameter list). -/
structure Fn where
  fname : String
  signature : Except String (List String)

/-- The `FunctionTool` instance (`self`): its registered `name`, the
underlying callable `fn`, and the lazily attached
`_allowed_parameter_names` attribute (`none` = attribute absent, i.e.
`hasattr` is false). -/
structure Registration where
  name : String
  fn : Fn
  cache : Option (List String)

/-- A Python exception: either the `ValueError`/`TypeError` raised by
`inspect.signature` on a non-introspectable callable, or an arbitrary
downstream error (type and message) raised by the original `run`. -/
inductive PyErr where
  | introspection (msg : String)
  | domain (ty : String) (msg : String)

/-- The structured diagnostic record of line 52 of the source:
`log.debug("Dropped unsupported fields for tool '%s': %s", tool_name, removed)`. -/
structure Diagnostic where
  tool : String
  removed : List String

/-- Observable outcome of one call through an entry point: the returned
value or raised exception, the registration's cache slot afterwards, the
diagnostics emitted, and how many times `inspect.signature` ran. -/
structure RunResult where
  result : Except PyErr PyVal
  cache : Option (List String)
  diags : List Diagnostic
  introspections : Nat

/-- An installable entry point (`FunctionTool.run` or a wrapper over
it): a function of `self` and the incoming payload. -/
def EntryPoint := Registration → PyVal → RunResult

/-- Line 47 of the source:
`sanitized = {k: v for k, v in arguments.items() if k in allowed}`. -/
def sanitizeDict (entries : List (String × PyVal)) (allowed : List String) :
    List (String × PyVal) :=
  entries.filter (fun kv => allowed.contains kv.1)

/-- Line 49 of the source:
`removed = sorted(set(arguments.keys()) - set(allowed))` — the distinct
payload keys outside the allowlist, in ascending order. -/
def droppedKeys (entries : List (String × PyVal)) (allowed : List String) :
    List String :=
  List.insertionSort (· ≤ ·)
    (((entries.map Prod.fst).filter (fun k => !allowed.contains k)).dedup)

/-- The Payload Sanitizer as a standalone function (lines 38-39 and
47-49 of the source): a non-dict payload is returned unchanged with no
dropped keys; a dict payload is filtered to the allowlist, with the
dropped keys reported. -/
def sanitize (payload : PyVal) (allowed : List String) :
    PyVal × List String :=
  match payload with
  | .dict entries =>
      (.dict (sanitizeDict entries allowed), droppedKeys entries allowed)
  | p => (p, [])

/-- The Allowlist Resolver (lines 42-46 of the source): if
`self._allowed_parameter_names` is absent, run `inspect.signature` and
attach the parameter names; return the allowlist (or the introspection
failure), the updated registration, and how many introspections ran. -/
def resolve (self : Registration) :
    Except String (List String) × Registration × Nat :=
  match self.cache with
  | some allowed => (.ok allowed, self, 0)
  | none =>
      match self.fn.signature with
      | .error msg => (.error msg, self, 1)
      | .ok params => (.ok params, { self with cache := some params }, 1)

/-- Lines 47-54 of the source, after the allowlist is in hand: filter
the payload, emit the diagnostic when `len(sanitized) != len(arguments)`,
and forward the sanitized payload to the original entry point.  `intro`
counts the introspections the resolve step already performed. -/
def sanitizeAndForward (orig : EntryPoint) (self : Registration)
    (allowed : List String) (entries : List (String × PyVal))
    (intro : Nat) : RunResult :=
  let sanitized := sanitizeDict entries allowed
  let diags :=
    if sanitized.length ≠ entries.length then
      [⟨self.name, droppedKeys entries allowed⟩]
    else []
  let r := orig self (.dict sanitized)
  ⟨r.result, r.cache, diags ++ r.diags, intro + r.introspections⟩

/-- The wrapper `_run_with_arg_sanitizer` (lines 29-54 of the source), as a
transformer of the captured `_original_run`: non-dict payloads are
delegated unchanged; otherwise the allowlist is resolved (an
introspection failure propagates as an exception) and the sanitized
payload forwarded. -/
def runWithArgSanitizer (origRun : EntryPoint) : EntryPoint :=
  fun self arguments =>
    match arguments with
    | .dict entries =>
        match resolve self with
        | (.error msg, self', n) => ⟨.error (.introspection msg), self'.cache, [], n⟩
        | (.ok allowed, self', n) =>
            sanitizeAndForward origRun self' allowed entries n
    | args => origRun self args

/-- The unpatched `FunctionTool.run`: it calls the underlying function
on the payload, touches neither the `_allowed_parameter_names` slot nor
the sanitizer's log, and performs no introspection.  `f` abstracts
FastMCP's validation-and-dispatch of the callable. -/
def baseRun (f : Fn → PyVal → Except PyErr PyVal) : EntryPoint :=
  fun self args => ⟨f self.fn args, self.cache, [], 0⟩

/-- Iterated calls (`n` of them) of the Allowlist Resolver on one registration
(threading the cache slot): the list of per-call results, the final
registration state, and the total number of introspections performed. -/
def resolveCalls (reg : Registration) :
    Nat → List (Except String (List String)) × Registration × Nat
  | 0 => ([], reg, 0)
  | n + 1 =>
      let s := resolveCalls reg n
      let r := resolve s.2.1
      (s.1 ++ [r.1], r.2.1, s.2.2 + r.2.2)

/-! ### Helper lemmas -/

/-- Filtering an already-filtered dict drops nothing: the sanitizer is
stable on its own output. -/
theorem sanitizeDict_idem (entries : List (String × PyVal))
    (allowed : List String) :
    sanitizeDict (sanitizeDict entries allowed) allowed
      = sanitizeDict entries allowed := by
  apply List.filter_eq_self.mpr
  intro a ha
  exact (List.mem_filter.mp ha).2

/-- Membership in the dropped-key list: exactly the payload keys outside
the allowlist. -/
theorem mem_droppedKeys (entries : List (String × PyVal))
    (allowed : List String) (k : String) :
    k ∈ droppedKeys entries allowed
      ↔ k ∈ entries.map Prod.fst ∧ k ∉ allowed := by
  unfold droppedKeys
  rw [List.mem_insertionSort, List.mem_dedup, List.mem_filter]
  simp

/-- The dropped-key list is empty exactly when every payload key is
allowlisted. -/
theorem droppedKeys_eq_nil_iff (entries : List (String × PyVal))
    (allowed : List String) :
    droppedKeys entries allowed = []
      ↔ ∀ kv ∈ entries, allowed.contains kv.1 := by
  unfold droppedKeys
  constructor
  · intro h kv hkv
    by_contra hc
    have hmem : kv.1 ∈ (entries.map Prod.fst).filter
        (fun k => !allowed.contains k) := by
      rw [List.mem_filter]
      exact ⟨List.mem_map_of_mem _ hkv, by simpa using hc⟩
    rw [← List.mem_dedup, ← List.mem_insertionSort (r := (· ≤ ·))] at hmem
    rw [h] at hmem
    exact List.not_mem_nil _ hmem
  · intro h
    have hfil : (entries.map Prod.fst).filter
        (fun k => !allowed.contains k) = [] := by
      rw [List.filter_eq_nil_iff]
      intro a ha
      obtain ⟨kv, hkv, rfl⟩ := List.mem_map.mp ha
      simpa using h kv hkv
    rw [hfil]
    rfl

/-- Sanitizing its own output drops nothing. -/
theorem droppedKeys_sanitized (entries : List (String × PyVal))
    (allowed : List String) :
    droppedKeys (sanitizeDict entries allowed) allowed = [] :=
  (droppedKeys_eq_nil_iff _ _).mpr (fun _ ha => (List.mem_filter.mp ha).2)

/-- The code's diagnostic trigger `len(sanitized) != len(arguments)`
fires exactly when the dropped-key list is non-empty. -/
theorem length_ne_iff_dropped (entries : List (String × PyVal))
    (allowed : List String) :
    (sanitizeDict entries allowed).length ≠ entries.length
      ↔ droppedKeys entries allowed ≠ [] := by
  rw [not_iff_not, droppedKeys_eq_nil_iff]
  exact List.filter_length_eq_length

/-- The dropped-key list is sorted in ascending order. -/
theorem droppedKeys_sorted (entries : List (String × PyVal))
    (allowed : List String) :
    List.Sorted (· ≤ ·) (droppedKeys entries allowed) :=
  List.sorted_insertionSort _ _

/-- A successful resolve leaves the registration with exactly the
returned allowlist in its cache slot, and only the cache changed. -/
theorem resolve_ok_cache (reg self' : Registration)
    (allowed : List String) (n : Nat)
    (h : resolve reg = (.ok allowed, self', n)) :
    self'.cache = some allowed ∧ self'.name = reg.name
      ∧ self'.fn = reg.fn := by
  unfold resolve at h
  cases hc : reg.cache with
  | some a =>
      rw [hc] at h
      simp only [Prod.mk.injEq, Except.ok.injEq] at h
      obtain ⟨rfl, rfl, rfl⟩ := h
      exact ⟨hc, rfl, rfl⟩
  | none =>
      rw [hc] at h
      cases hs : reg.fn.signature with
      | error msg => rw [hs] at h; exact absurd h (by simp)
      | ok params =>
          rw [hs] at h
          simp only [Prod.mk.injEq, Except.ok.injEq] at h
          obtain ⟨rfl, rfl, rfl⟩ := h
          exact ⟨rfl, rfl, rfl⟩

/-! ### Claim theorems -/

/-- C1: for every mapping payload and every allowlist, the sanitized
payload contains exactly those entries of the payload whose key is in
the allowlist, each with its value unchanged; no key outside the
intersection appears and no allowlisted key absent from the payload is
defaulted in. -/
theorem sanitize_keeps_exactly_allowlisted_entries
    (entries : List (String × PyVal)) (allowed : List String) :
    (sanitize (.dict entries) allowed).1
        = .dict (sanitizeDict entries allowed) ∧
    ∀ k v, ((k, v) ∈ sanitizeDict entries allowed
        ↔ (k, v) ∈ entries ∧ k ∈ allowed) := by
  refine ⟨rfl, fun k v => ?_⟩
  simp [sanitizeDict, List.mem_filter]

/-- C2: for every payload that is not a key-value mapping,
sanitization is the identity with an empty dropped-key set, and the
wrapped entry point delegates the payload unchanged to the original
one. -/
theorem sanitize_non_mapping_is_identity (payload : PyVal)
    (allowed : List String) (orig : EntryPoint) (reg : Registration)
    (h : payload.isDict = false) :
    sanitize payload allowed = (payload, []) ∧
    runWithArgSanitizer orig reg payload = orig reg payload := by
  cases payload <;> simp_all [sanitize, runWithArgSanitizer, PyVal.isDict]

/-- A sample registration used to instantiate universally quantified
theorems at concrete inputs. -/
def regW : Registration := ⟨"get_host", ⟨"get_host", .ok ["hostid"]⟩, none⟩

/-- A sample original entry point that always succeeds, used to
instantiate universally quantified theorems at concrete inputs. -/
def origW : EntryPoint := baseRun (fun _ _ => .ok .null)

/-- C2, instantiated: the literal string payload `"not-a-mapping"` with
allowlist `["x"]` passes through sanitization and the wrapper
unchanged. -/
theorem sanitize_non_mapping_is_identity_witness :
    sanitize (.str "not-a-mapping") ["x"] = (.str "not-a-mapping", []) ∧
    runWithArgSanitizer origW regW (.str "not-a-mapping")
      = origW regW (.str "not-a-mapping") :=
  sanitize_non_mapping_is_identity (.str "not-a-mapping") ["x"] origW regW rfl

/-- C5: sanitization is idempotent — re-sanitizing a sanitized payload
changes nothing and drops no keys. -/
theorem sanitize_idempotent (payload : PyVal) (allowed : List String) :
    (sanitize (sanitize payload allowed).1 allowed).1
        = (sanitize payload allowed).1 ∧
    (sanitize (sanitize payload allowed).1 allowed).2 = [] := by
  cases payload <;> simp [sanitize, sanitizeDict_idem, droppedKeys_sanitized]

/-- C9: the sanitized payload is a sublist of the original payload's
entry list, so the retained entries (and hence the retained keys) keep
the relative order they had in the incoming payload. -/
theorem sanitize_preserves_key_order (entries : List (String × PyVal))
    (allowed : List String) :
    (sanitizeDict entries allowed).Sublist entries ∧
    ((sanitizeDict entries allowed).map Prod.fst).Sublist
      (entries.map Prod.fst) :=
  ⟨List.filter_sublist _, (List.filter_sublist _).map _⟩

/-- One unfolding step of `resolveCalls`. -/
theorem resolveCalls_succ (reg : Registration) (n : Nat) :
    resolveCalls reg (n + 1)
      = ((resolveCalls reg n).1
            ++ [(resolve (resolveCalls reg n).2.1).1],
         (resolve (resolveCalls reg n).2.1).2.1,
         (resolveCalls reg n).2.2
            + (resolve (resolveCalls reg n).2.1).2.2) := rfl

/-- Resolver behavior over `m + 1` calls on a fresh registration with an
introspectable callable: every call returns the parameter names, the
cache holds them from the first call on, and introspection ran once. -/
theorem resolveCalls_fresh_ok (name fname : String) (params : List String) :
    ∀ m : Nat,
      resolveCalls ⟨name, ⟨fname, .ok params⟩, none⟩ (m + 1)
        = (List.replicate (m + 1) (.ok params),
           ⟨name, ⟨fname, .ok params⟩, some params⟩, 1) := by
  intro m
  induction m with
  | zero => rfl
  | succ k ih =>
      rw [resolveCalls_succ, ih]
      simp [resolve, List.replicate_succ']

/-- C3: on a fresh registration whose callable is introspectable, all
`n ≥ 1` resolver calls return the signature's parameter names in
declaration order, identical to the first call; introspection runs
exactly once, and the cache slot holds the allowlist unchanged from the
first call onwards. -/
theorem resolve_idempotent_single_introspection (name fname : String)
    (params : List String) (n : Nat) (hn : 1 ≤ n) :
    (resolveCalls ⟨name, ⟨fname, .ok params⟩, none⟩ n).1
        = List.replicate n (.ok params) ∧
    (resolveCalls ⟨name, ⟨fname, .ok params⟩, none⟩ n).2.1
        = ⟨name, ⟨fname, .ok params⟩, some params⟩ ∧
    (resolveCalls ⟨name, ⟨fname, .ok params⟩, none⟩ n).2.2 = 1 := by
  obtain ⟨m, rfl⟩ := Nat.exists_eq_add_of_le hn
  rw [Nat.add_comm 1 m, resolveCalls_fresh_ok name fname params m]
  exact ⟨rfl, rfl, rfl⟩

/-- C3, instantiated: three resolver calls on a fresh registration for
a two-parameter callable all return the same allowlist, cache it, and
introspect once. -/
theorem resolve_idempotent_single_introspection_witness :
    (resolveCalls ⟨"host_get", ⟨"host_get", .ok ["hostid", "output"]⟩,
        none⟩ 3).1
      = List.replicate 3 (.ok ["hostid", "output"]) ∧
    (resolveCalls ⟨"host_get", ⟨"host_get", .ok ["hostid", "output"]⟩,
        none⟩ 3).2.1
      = ⟨"host_get", ⟨"host_get", .ok ["hostid", "output"]⟩,
         some ["hostid", "output"]⟩ ∧
    (resolveCalls ⟨"host_get", ⟨"host_get", .ok ["hostid", "output"]⟩,
        none⟩ 3).2.2 = 1 :=
  resolve_idempotent_single_introspection "host_get" "host_get"
    ["hostid", "output"] 3 (by decide)

/-- C4: the wrapper's result is exactly what the original entry point
returns on the sanitized payload — a downstream error propagates with
identical type and message, and a successful value is returned
unchanged. -/
theorem wrapper_propagates_result_and_error
    (f : Fn → PyVal → Except PyErr PyVal) (reg : Registration)
    (entries : List (String × PyVal)) (allowed : List String)
    (h : reg.cache = some allowed ∨
         (reg.cache = none ∧ reg.fn.signature = .ok allowed)) :
    ((runWithArgSanitizer (baseRun f) reg (.dict entries)).result
        = f reg.fn (.dict (sanitizeDict entries allowed))) ∧
    (∀ e, f reg.fn (.dict (sanitizeDict entries allowed)) = .error e →
        (runWithArgSanitizer (baseRun f) reg (.dict entries)).result
          = .error e) ∧
    (∀ v, f reg.fn (.dict (sanitizeDict entries allowed)) = .ok v →
        (runWithArgSanitizer (baseRun f) reg (.dict entries)).result
          = .ok v) := by
  have hmain : (runWithArgSanitizer (baseRun f) reg (.dict entries)).result
      = f reg.fn (.dict (sanitizeDict entries allowed)) := by
    rcases h with hc | ⟨hc, hs⟩
    · simp [runWithArgSanitizer, resolve, hc, sanitizeAndForward, baseRun]
    · simp [runWithArgSanitizer, resolve, hc, hs, sanitizeAndForward,
        baseRun]
  exact ⟨hmain, fun e he => hmain.trans he, fun v hv => hmain.trans hv⟩

/-- A sample callable dispatch that raises a domain error, used to
instantiate universally quantified theorems at concrete inputs. -/
def fBoom : Fn → PyVal → Except PyErr PyVal :=
  fun _ _ => .error (.domain "ValueError" "boom")

/-- A sample registration with an already-cached allowlist. -/
def regTicket : Registration :=
  ⟨"ticket_create", ⟨"ticket_create", .ok ["ticket_id", "note"]⟩,
   some ["ticket_id", "note"]⟩

/-- C4, instantiated: when the original entry point raises
`ValueError: boom` on the sanitized payload, the wrapped entry point
raises the identical error. -/
theorem wrapper_propagates_result_and_error_witness :
    (runWithArgSanitizer (baseRun fBoom) regTicket
        (.dict [("ticket_id", .int 42), ("toolCallId", .str "abc123")])).result
      = .error (.domain "ValueError" "boom") :=
  (wrapper_propagates_result_and_error fBoom regTicket
      [("ticket_id", .int 42), ("toolCallId", .str "abc123")]
      ["ticket_id", "note"] (.inl rfl)).2.1
    (.domain "ValueError" "boom") rfl

/-- C6: the dropped keys are exactly the payload's keys outside the
allowlist; when any key is dropped, a non-fatal diagnostic carrying the
registration's name and the dropped keys in ascending order is emitted,
and the original entry point still runs on the sanitized payload
(unknown keys are never raised as an error). -/
theorem dropped_keys_reported_not_raised
    (f : Fn → PyVal → Except PyErr PyVal) (reg : Registration)
    (entries : List (String × PyVal)) (allowed : List String)
    (h : reg.cache = some allowed) :
    (∀ k, k ∈ droppedKeys entries allowed
        ↔ k ∈ entries.map Prod.fst ∧ k ∉ allowed) ∧
    ((runWithArgSanitizer (baseRun f) reg (.dict entries)).diags
        = if droppedKeys entries allowed = [] then []
          else [⟨reg.name, droppedKeys entries allowed⟩]) ∧
    List.Sorted (· ≤ ·) (droppedKeys entries allowed) ∧
    (runWithArgSanitizer (baseRun f) reg (.dict entries)).result
        = f reg.fn (.dict (sanitizeDict entries allowed)) := by
  refine ⟨mem_droppedKeys entries allowed, ?_,
    droppedKeys_sorted entries allowed, ?_⟩
  · by_cases hd : droppedKeys entries allowed = []
    · have hlen : ¬(sanitizeDict entries allowed).length ≠ entries.length :=
        fun hne => (length_ne_iff_dropped entries allowed).mp hne hd
      simp [runWithArgSanitizer, resolve, h, sanitizeAndForward, baseRun,
        hlen, hd]
    · have hlen : (sanitizeDict entries allowed).length ≠ entries.length :=
        (length_ne_iff_dropped entries allowed).mpr hd
      simp [runWithArgSanitizer, resolve, h, sanitizeAndForward, baseRun,
        hlen, hd]
  · simp [runWithArgSanitizer, resolve, h, sanitizeAndForward, baseRun]

/-- A sample callable dispatch that always succeeds with `None`. -/
def fOk : Fn → PyVal → Except PyErr PyVal := fun _ _ => .ok .null

/-- A sample registration for a host-update tool with a cached
allowlist. -/
def regHost : Registration :=
  ⟨"host_update", ⟨"host_update", .ok ["hostid", "status"]⟩,
   some ["hostid", "status"]⟩

/-- C6, instantiated: a payload carrying the extra key `toolCallId`
produces exactly one diagnostic naming the tool and the dropped key,
and the call still succeeds. -/
theorem dropped_keys_reported_not_raised_witness :
    (runWithArgSanitizer (baseRun fOk) regHost
        (.dict [("hostid", .int 1), ("toolCallId", .str "abc123")])).diags
      = [⟨"host_update", ["toolCallId"]⟩] := by
  have h := (dropped_keys_reported_not_raised fOk regHost
      [("hostid", .int 1), ("toolCallId", .str "abc123")]
      ["hostid", "status"] rfl).2.1
  rw [h]
  rfl

/-- C7: on a registration with no cached allowlist and a
non-introspectable callable, a mapping-payload call fails with the
introspection error: nothing is cached, no diagnostic is emitted, the
original entry point is never reached, and exactly one introspection
attempt is made within the call. -/
theorem introspection_failure_is_fatal
    (f : Fn → PyVal → Except PyErr PyVal) (reg : Registration)
    (entries : List (String × PyVal)) (msg : String)
    (hc : reg.cache = none) (hs : reg.fn.signature = .error msg) :
    runWithArgSanitizer (baseRun f) reg (.dict entries)
      = ⟨.error (.introspection msg), none, [], 1⟩ := by
  simp [runWithArgSanitizer, resolve, hc, hs]

/-- A callable whose signature cannot be introspected. -/
def fnNoSig : Fn := ⟨"builtin_tool", .error "unsupported callable"⟩

/-- A fresh registration wrapping the non-introspectable callable. -/
def regNoSig : Registration := ⟨"builtin_tool", fnNoSig, none⟩

/-- C7, instantiated: a dict call on the non-introspectable
registration raises the introspection error with one introspection
attempt and an untouched cache. -/
theorem introspection_failure_is_fatal_witness :
    runWithArgSanitizer (baseRun fOk) regNoSig (.dict [("a", .int 1)])
      = ⟨.error (.introspection "unsupported callable"), none, [], 1⟩ :=
  introspection_failure_is_fatal fOk regNoSig [("a", .int 1)]
    "unsupported callable" rfl rfl

/-- C10: a non-mapping payload bypasses the resolver entirely — the
cache slot is untouched, no introspection happens, and the call reaches
the original entry point even when the callable's signature cannot be
introspected. -/
theorem non_mapping_skips_resolver (f : Fn → PyVal → Except PyErr PyVal)
    (reg : Registration) (args : PyVal) (h : args.isDict = false) :
    runWithArgSanitizer (baseRun f) reg args
      = ⟨f reg.fn args, reg.cache, [], 0⟩ := by
  cases args <;> simp_all [runWithArgSanitizer, baseRun, PyVal.isDict]

/-- C10, instantiated: a string payload on the non-introspectable
registration still succeeds, with no introspection and the cache slot
left empty. -/
theorem non_mapping_skips_resolver_witness :
    runWithArgSanitizer (baseRun (fun _ _ => .ok (.str "done"))) regNoSig
        (.str "ping")
      = ⟨.ok (.str "done"), none, [], 0⟩ :=
  non_mapping_skips_resolver (fun _ _ => .ok (.str "done")) regNoSig
    (.str "ping") rfl

/-- C8: installing the sanitizing wrapper twice yields an entry point
with observable behavior identical to a single installation — same
result or exception, same cache state, same diagnostics, same number of
introspections — for every original entry point, registration and
payload. -/
theorem install_wrapper_idempotent (orig : EntryPoint)
    (reg : Registration) (args : PyVal) :
    runWithArgSanitizer (runWithArgSanitizer orig) reg args
      = runWithArgSanitizer orig reg args := by
  cases args with
  | dict entries =>
      rcases hres : resolve reg with ⟨res, self', n⟩
      cases res with
      | error msg => simp [runWithArgSanitizer, hres]
      | ok allowed =>
          obtain ⟨hc, -, -⟩ := resolve_ok_cache reg self' allowed n hres
          have hinner : resolve self' = (.ok allowed, self', 0) := by
            unfold resolve
            rw [hc]
          simp [runWithArgSanitizer, sanitizeAndForward, hres, hinner,
            sanitizeDict_idem]
  | str s => rfl
  | int n => rfl
  | bool b => rfl
  | null => rfl
  | list xs => rfl

end FastmcpPatch
